import Mathlib

/-!
Verification of the preference-scoring and selection engine of the
Hihi-Haha-Hub joke-recommendation bot.

The Python sources (`проект/recommendations.py`, `проект/database_sqlite.py`)
are shallowly embedded below: scores, weights and probabilities become exact
rationals (`ℚ`), the `user_preferences` table becomes an explicit state
`ℤ → ℤ → Option PrefRow`, SQL queries become list computations, and
randomness (`random.random()`, `ORDER BY RANDOM()`, `random.choices`) is
supplied by explicit oracle parameters.
-/

namespace HihiHaha

/-- One row of a user's preference map, as produced by
`Database.get_user_preferences` (database_sqlite.py, lines 492-526):
theme name, emoji, affinity score and interaction count. -/
structure ThemeData where
  name : String
  emoji : String
  score : ℚ
  interactions : ℤ
deriving DecidableEq

/-- `ThemeBasedRecommender._calculate_theme_probability`
(recommendations.py, lines 248-267): map the score from [-1,1] to [0,1],
floor under-sampled themes at 0.3, then dampen strongly disliked themes
by the factor 0.3. -/
def calculate_theme_probability (score : ℚ) (interactions : ℤ) : ℚ :=
  let probability := (score + 1) / 2
  let probability := if interactions < 5 then max probability (3/10) else probability
  let probability := if score < -(1/2) then probability * (3/10) else probability
  probability

/-- The value `_calculate_theme_probability` computes just before the
strong-dislike dampening step (its first two statements): used to state
the dampening claim "p = 0.3 × un-dampened value". -/
def undampened_probability (score : ℚ) (interactions : ℤ) : ℚ :=
  let probability := (score + 1) / 2
  if interactions < 5 then max probability (3/10) else probability

/-- `ThemeBasedRecommender._normalize_probabilities`
(recommendations.py, lines 269-291): divide by the total when it is
positive, otherwise assign the uniform probability 1/n. -/
def normalize_probabilities (theme_probabilities : List (ℤ × ℚ)) : List (ℤ × ℚ) :=
  if theme_probabilities = [] then []
  else
    let total_prob := (theme_probabilities.map Prod.snd).sum
    if 0 < total_prob then
      theme_probabilities.map (fun p => (p.1, p.2 / total_prob))
    else
      theme_probabilities.map (fun p => (p.1, 1 / (theme_probabilities.length : ℚ)))

/-- `ThemeBasedRecommender._calculate_theme_probabilities`
(recommendations.py, lines 231-246): per-theme probability, keep only
strictly positive ones, then normalize. -/
def calculate_theme_probabilities (preferences : List (ℤ × ThemeData)) : List (ℤ × ℚ) :=
  normalize_probabilities
    ((preferences.map
        (fun p => (p.1, calculate_theme_probability p.2.score p.2.interactions))).filter
      (fun p => 0 < p.2))

/-- One row of the `user_preferences` table: affinity score and
interaction count (the primary key (user_id, theme_id) indexes the
state mapping, the timestamp column is not modelled). -/
structure PrefRow where
  score : ℚ
  interactions : ℤ
deriving DecidableEq

/-- The `user_preferences` table, keyed by (user_id, theme_id);
`none` means no row for that key. -/
def PrefState : Type := ℤ → ℤ → Option PrefRow

/-- One row of `joke_themes` joined with `themes`, as returned by
`Database.get_joke_themes`: the theme id and the stored weight
(`none` models a NULL weight). -/
structure ThemeLink where
  id : ℤ
  weight : Option ℚ
deriving DecidableEq

/-- The weight actually used by `_update_single_theme_preference`:
Python's `theme["weight"] or 1.0`, which replaces both `None` and the
falsy value `0.0` by `1.0`. -/
def effective_weight (theme : ThemeLink) : ℚ :=
  match theme.weight with
  | none => 1
  | some w => if w = 0 then 1 else w

/-- `Database._update_single_theme_preference`
(database_sqlite.py, lines 528-574): read the current score (0.0 when no
row exists), move it by `0.1 * weight` clamped to [-1,1], and upsert the
row with `interactions + 1` (1 when no row existed). -/
def update_single_theme_preference (s : PrefState) (user_id : ℤ) (theme : ThemeLink)
    (liked : Bool) : PrefState :=
  let theme_id := theme.id
  let weight := effective_weight theme
  let current_score := match s user_id theme_id with
    | some row => row.score
    | none => 0
  let delta := 1/10 * weight
  let new_score := if liked then min 1 (current_score + delta)
                   else max (-1) (current_score - delta)
  let new_interactions := match s user_id theme_id with
    | some row => row.interactions + 1
    | none => 1
  fun u t =>
    if u = user_id ∧ t = theme_id then some ⟨new_score, new_interactions⟩ else s u t

/-- `Database.update_user_preference` (database_sqlite.py, lines 576-608),
with the item's theme links (the result of `get_joke_themes(joke_id)`)
passed in explicitly: if the item has no theme links, report failure and
leave the state unchanged; otherwise update each linked theme in turn and
report success. -/
def update_user_preference (s : PrefState) (joke_themes : List ThemeLink) (user_id : ℤ)
    (liked : Bool) : Bool × PrefState :=
  if joke_themes = [] then (false, s)
  else
    (true, joke_themes.foldl
      (fun st theme => update_single_theme_preference st user_id theme liked) s)

/-- One feedback event: the acting user, the rated item's theme links,
and the like/dislike verdict. -/
structure FeedbackEvent where
  user : ℤ
  themes : List ThemeLink
  liked : Bool

/-- A sequence of feedback events applied through
`Database.update_user_preference`. -/
def run_feedback (s : PrefState) (events : List FeedbackEvent) : PrefState :=
  events.foldl (fun st e => (update_user_preference st e.themes e.user e.liked).2) s

/-- The score-bounds invariant: every stored `user_preferences.score`
lies in [-1, 1]. -/
def ScoreInv (s : PrefState) : Prop :=
  ∀ u t r, s u t = some r → -1 ≤ r.score ∧ r.score ≤ 1

/-- The row `_update_single_theme_preference` writes for its key, as a
function of the previously stored row. -/
def updated_row (old : Option PrefRow) (theme : ThemeLink) (liked : Bool) : PrefRow :=
  { score :=
      if liked then min 1 ((old.elim 0 PrefRow.score) + 1/10 * effective_weight theme)
      else max (-1) ((old.elim 0 PrefRow.score) - 1/10 * effective_weight theme)
  , interactions := old.elim 1 (fun r => r.interactions + 1) }

/-- One row of the `jokes` table (id, text, approval flag; the author and
timestamp columns play no role in the claims). -/
structure Joke where
  id : ℕ
  text : String
  is_approved : Bool
deriving DecidableEq

/-- The SQL text `Database.get_random_joke` assembles
(database_sqlite.py, lines 328-346), abstracted to its two variable parts:
`themeJoin = some t` when the theme branch is taken (`FROM jokes j JOIN
joke_themes jt ... AND jt.theme_id = t`, defining the alias `j`), and
`exclusion = some ids` when the clause `AND j.id NOT IN (ids)` was
appended. -/
structure SqlQuery where
  themeJoin : Option ℤ
  exclusion : Option (List ℕ)
deriving DecidableEq

/-- Query assembly in `Database.get_random_joke`: `if theme_id:` uses
Python truthiness (both `None` and `0` take the alias-free branch), and
the exclusion clause is appended whenever `excluded_ids` is non-empty,
in both branches referring to the alias `j`. -/
def build_random_joke_query (excluded_ids : List ℕ) (theme_id : Option ℤ) : SqlQuery :=
  { themeJoin := match theme_id with
      | some t => if t = 0 then none else some t
      | none => none
  , exclusion := if excluded_ids = [] then none else some excluded_ids }

/-- The multiset of joke ids the assembled query's row set contains:
approved jokes, joined against `joke_themes` rows matching the theme
filter when present, minus the excluded ids. -/
def random_joke_candidates (jokes : List Joke) (joke_themes : List (ℕ × ℤ))
    (q : SqlQuery) : List ℕ :=
  let base := match q.themeJoin with
    | some t =>
        (jokes.filter (fun j => j.is_approved)).flatMap
          (fun j => (joke_themes.filter (fun p => p.1 = j.id ∧ p.2 = t)).map
            (fun _ => j.id))
    | none => (jokes.filter (fun j => j.is_approved)).map (fun j => j.id)
  match q.exclusion with
  | some ids => base.filter (fun jid => jid ∉ ids)
  | none => base

/-- `ORDER BY RANDOM() LIMIT 1` followed by `fetchone()`: an arbitrary
row of the result set (indexed by the randomness oracle `rand_idx`), or
`none` exactly when the result set is empty. -/
def sql_pick (rand_idx : ℕ) (rows : List ℕ) : Option ℕ :=
  rows[rand_idx % rows.length]?

/-- Executing the assembled query: a query whose exclusion clause
references the alias `j` while its FROM clause does not define `j` is an
SQL error, which the `except sqlite3.Error` handler in `get_random_joke`
converts to `None`; otherwise a random row of the candidate set. -/
def exec_random_joke_query (jokes : List Joke) (joke_themes : List (ℕ × ℤ))
    (rand_idx : ℕ) (q : SqlQuery) : Option ℕ :=
  if q.exclusion.isSome ∧ q.themeJoin = none then none
  else sql_pick rand_idx (random_joke_candidates jokes joke_themes q)

/-- `Database.get_random_joke` (database_sqlite.py, lines 312-357),
returning the selected joke's id. -/
def get_random_joke (jokes : List Joke) (joke_themes : List (ℕ × ℤ)) (rand_idx : ℕ)
    (excluded_ids : List ℕ) (theme_id : Option ℤ) : Option ℕ :=
  exec_random_joke_query jokes joke_themes rand_idx
    (build_random_joke_query excluded_ids theme_id)

/-- One row of the `themes` table. -/
structure Theme where
  id : ℤ
  name : String
  emoji : String
deriving DecidableEq

/-- `Database.get_user_preferences` (database_sqlite.py, lines 492-526):
`themes LEFT JOIN user_preferences` — one entry per theme regardless of
whether the user has a `user_preferences` row, with score and
interactions coalesced to 0 when the join finds no row. -/
def get_user_preferences (themes : List Theme) (s : PrefState) (user_id : ℤ) :
    List (ℤ × ThemeData) :=
  themes.map (fun t =>
    (t.id,
     { name := t.name
     , emoji := t.emoji
     , score := match s user_id t.id with
        | some r => r.score
        | none => 0
     , interactions := match s user_id t.id with
        | some r => r.interactions
        | none => 0 }))

/-- The random draws `get_recommended_joke` consumes, made explicit:
whether `random.random() < exploration_rate` fired, what the exploration
lookup returned, which theme `random.choices` picks (jitter included),
and what the per-theme joke lookup returns. -/
structure RecOracle where
  explore_draw : Bool
  exploration_joke : Option ℕ
  choose_theme : List (ℤ × ℚ) → ℤ
  theme_joke : ℤ → Option ℕ

/-- The terminal outcome of one `get_recommended_joke` call
(recommendations.py, lines 100-148): which return path was taken. -/
inductive RecommendPath where
  | noPreferences
  | exploration
  | allZeroFallback
  | themeSearch (theme : ℤ)
  | themeFallback (theme : ℤ)
deriving DecidableEq

/-- The control flow of `ThemeBasedRecommender.get_recommended_joke`
(recommendations.py, lines 100-148): empty preferences short-circuit to
a plain `db.get_random_joke()`; otherwise exploration may fire; otherwise
the theme probabilities decide between the all-zero fallback, a theme
search, and the per-theme fallback. -/
def recommend_path (themes : List Theme) (s : PrefState) (user_id : ℤ)
    (o : RecOracle) : RecommendPath :=
  let preferences := get_user_preferences themes s user_id
  if preferences = [] then .noPreferences
  else if o.explore_draw ∧ o.exploration_joke.isSome then .exploration
  else
    let theme_probabilities := calculate_theme_probabilities preferences
    if theme_probabilities = [] then .allZeroFallback
    else
      let chosen_theme := o.choose_theme theme_probabilities
      if (o.theme_joke chosen_theme).isSome then .themeSearch chosen_theme
      else .themeFallback chosen_theme

/-- The exception types the outer handler of `get_recommended_joke`
catches (recommendations.py, lines 150-155). -/
inductive ScoringExc where
  | valueError
  | typeError
  | keyError
  | attributeError
deriving DecidableEq

/-- Outcome of the body of `get_recommended_joke`: a normal return value,
or an exception reaching the outer handler. -/
inductive BodyOutcome where
  | ok (result : Option ℕ)
  | exc (e : ScoringExc)

/-- The outer exception handling of `get_recommended_joke`
(recommendations.py, lines 150-155): `ValueError`/`TypeError`/`KeyError`
degrade to `db.get_random_joke()` with no exclusions and no theme;
`AttributeError` returns `None`. -/
def get_recommended_joke_result (jokes : List Joke) (joke_themes : List (ℕ × ℤ))
    (rand_idx : ℕ) (body : BodyOutcome) : Option ℕ :=
  match body with
  | .ok r => r
  | .exc .valueError => get_random_joke jokes joke_themes rand_idx [] none
  | .exc .typeError => get_random_joke jokes joke_themes rand_idx [] none
  | .exc .keyError => get_random_joke jokes joke_themes rand_idx [] none
  | .exc .attributeError => none

/-- One entry of the profile's `themes` list. -/
structure ThemeProfile where
  id : ℤ
  name : String
  emoji : String
  score : ℚ
  interactions : ℤ
deriving DecidableEq

/-- The loop state of `_create_user_profile`: the profile fields built so
far together with the running `max_score`, `min_score` and
`max_interactions` locals. -/
structure ProfileAcc where
  themes : List ThemeProfile
  total_interactions : ℤ
  favorite_theme : Option ℤ
  least_favorite_theme : Option ℤ
  most_interacted_theme : Option ℤ
  max_score : ℚ
  min_score : ℚ
  max_interactions : ℤ
deriving DecidableEq

/-- The initial loop state of `_create_user_profile`
(recommendations.py, lines 347-357): empty profile, `max_score = -1`,
`min_score = 1`, `max_interactions = -1`. -/
def profile_init : ProfileAcc :=
  { themes := []
  , total_interactions := 0
  , favorite_theme := none
  , least_favorite_theme := none
  , most_interacted_theme := none
  , max_score := -1
  , min_score := 1
  , max_interactions := -1 }

/-- One iteration of the loop in `_create_user_profile`
(recommendations.py, lines 359-383): append the theme, accumulate
interactions, and update the three running extrema with strict
comparisons. -/
def profile_step (acc : ProfileAcc) (entry : ℤ × ThemeData) : ProfileAcc :=
  let theme_id := entry.1
  let data := entry.2
  let acc := { acc with
    themes := acc.themes ++ [⟨theme_id, data.name, data.emoji, data.score, data.interactions⟩]
    total_interactions := acc.total_interactions + data.interactions }
  let acc := if acc.max_score < data.score then
      { acc with max_score := data.score, favorite_theme := some theme_id }
    else acc
  let acc := if data.score < acc.min_score then
      { acc with min_score := data.score, least_favorite_theme := some theme_id }
    else acc
  if acc.max_interactions < data.interactions then
    { acc with max_interactions := data.interactions, most_interacted_theme := some theme_id }
  else acc

/-- The profile `_create_user_profile` returns. -/
structure UserProfile where
  themes : List ThemeProfile
  total_interactions : ℤ
  favorite_theme : Option ℤ
  least_favorite_theme : Option ℤ
  most_interacted_theme : Option ℤ
deriving DecidableEq

/-- `ThemeBasedRecommender._create_user_profile`
(recommendations.py, lines 338-389): fold the loop over the preference
entries, then sort the themes by score descending (Python's stable
`sorted(..., reverse=True)`). -/
def create_user_profile (preferences : List (ℤ × ThemeData)) : UserProfile :=
  let acc := preferences.foldl profile_step profile_init
  { themes := acc.themes.mergeSort (fun a b => decide (b.score ≤ a.score))
  , total_interactions := acc.total_interactions
  , favorite_theme := acc.favorite_theme
  , least_favorite_theme := acc.least_favorite_theme
  , most_interacted_theme := acc.most_interacted_theme }

/-- `ThemeBasedRecommender.get_user_profile`
(recommendations.py, lines 311-336): `None` on an empty preference map,
otherwise the computed profile. -/
def get_user_profile (themes : List Theme) (s : PrefState) (user_id : ℤ) :
    Option UserProfile :=
  let preferences := get_user_preferences themes s user_id
  if preferences = [] then none else some (create_user_profile preferences)

/-- C2 counterexample: at score = -1, interactions = 0 (< 5), the
pre-normalization probability is 9/100 < 3/10 — the strong-dislike
dampening is applied AFTER the under-sampling floor, so the floor does
not win: the claim "at least 0.3 regardless of score" is false. -/
theorem C2_counterexample :
    (0 : ℤ) < 5 ∧ calculate_theme_probability (-1) 0 < 3/10 := by
  constructor
  · norm_num
  · norm_num [calculate_theme_probability]

/-- C2 (amended): for interactions < 5 the floor gives a probability of
at least 0.3 whenever score ≥ -0.5; when score < -0.5 the dampening step
runs after the floor and the result is exactly 0.09. -/
theorem C2_floor (score : ℚ) (interactions : ℤ) (h : interactions < 5) :
    (¬ score < -(1/2) → 3/10 ≤ calculate_theme_probability score interactions)
    ∧ (score < -(1/2) → calculate_theme_probability score interactions = 9/100) := by
  unfold calculate_theme_probability
  simp only [if_pos h]
  constructor
  · intro hs
    rw [if_neg hs]
    exact le_max_right _ _
  · intro hs
    rw [if_pos hs]
    have hlt : (score + 1) / 2 ≤ 3/10 := by linarith
    rw [max_eq_right hlt]
    norm_num

theorem C2_floor_witness :
    3/10 ≤ calculate_theme_probability 0 0
    ∧ calculate_theme_probability (-1) 0 = 9/100 :=
  ⟨(C2_floor 0 0 (by norm_num)).1 (by norm_num),
   (C2_floor (-1) 0 (by norm_num)).2 (by norm_num)⟩

/-- C3 counterexample: at score = -1 (< -0.5), interactions = 5, the
dampened probability is exactly 0, and `_calculate_theme_probabilities`
drops the theme from the candidate set — the "never zero, never
eliminated" part of the claim is false. -/
theorem C3_counterexample :
    (-1 : ℚ) < -(1/2)
    ∧ calculate_theme_probability (-1) 5 = 0
    ∧ calculate_theme_probabilities [((1 : ℤ), ⟨"", "", -1, 5⟩)] = [] := by
  refine ⟨by norm_num, by norm_num [calculate_theme_probability], ?_⟩
  norm_num [calculate_theme_probabilities, calculate_theme_probability,
    normalize_probabilities]

/-- C3 (amended): for score < -0.5 the computed probability equals
0.3 × the un-dampened value; for scores in the valid range [-1, 1] it is
zero exactly when score = -1 and interactions ≥ 5 (the floor keeps it
positive when interactions < 5). -/
theorem C3_dampening (score : ℚ) (interactions : ℤ) (h : score < -(1/2)) :
    calculate_theme_probability score interactions
      = 3/10 * undampened_probability score interactions
    ∧ (-1 ≤ score →
        (calculate_theme_probability score interactions = 0
          ↔ score = -1 ∧ 5 ≤ interactions)) := by
  unfold calculate_theme_probability undampened_probability
  simp only [if_pos h]
  constructor
  · by_cases hi : interactions < 5 <;> simp [if_pos, if_neg, hi, mul_comm]
  · intro hge
    by_cases hi : interactions < 5
    · simp only [if_pos hi]
      have h3 : (0 : ℚ) < max ((score + 1) / 2) (3/10) :=
        lt_of_lt_of_le (by norm_num) (le_max_right _ _)
      constructor
      · intro hz
        exact absurd hz (by positivity)
      · intro ⟨_, h5⟩
        omega
    · simp only [if_neg hi]
      constructor
      · intro hz
        have : (score + 1) / 2 = 0 := by
          rcases mul_eq_zero.mp hz with h0 | h0
          · exact h0
          · norm_num at h0
        exact ⟨by linarith [this], by omega⟩
      · intro ⟨h1, _⟩
        rw [h1]
        norm_num

theorem C3_dampening_witness :
    calculate_theme_probability (-3/4) 2 = 3/10 * undampened_probability (-3/4) 2 ∧
    (calculate_theme_probability (-3/4) 2 = 0 ↔ (-3/4 : ℚ) = -1 ∧ (5 : ℤ) ≤ 2) :=
  ⟨(C3_dampening (-3/4) 2 (by norm_num)).1,
   (C3_dampening (-3/4) 2 (by norm_num)).2 (by norm_num)⟩

/-- C5: with no theme filter and a non-empty exclusion list, the
assembled query appends `AND j.id NOT IN (...)` to a FROM clause that
never defines the alias `j`, so execution fails and the swallowed error
yields `None` regardless of the catalog. -/
theorem C5_broken_exclusion (jokes : List Joke) (joke_themes : List (ℕ × ℤ))
    (rand_idx : ℕ) (excluded_ids : List ℕ) (h : excluded_ids ≠ []) :
    get_random_joke jokes joke_themes rand_idx excluded_ids none = none := by
  unfold get_random_joke build_random_joke_query exec_random_joke_query
  simp [h]

theorem C5_broken_exclusion_witness :
    get_random_joke [⟨1, "", true⟩] [] 0 [2] none = none
    ∧ get_random_joke [⟨1, "", true⟩] [] 0 [] none = some 1 :=
  ⟨C5_broken_exclusion [⟨1, "", true⟩] [] 0 [2] (by simp), rfl⟩

/-- C6: `update_user_preference` on an item whose resolved theme-link
set is empty returns `False` and leaves the preference state untouched. -/
theorem C6_unclassified_noop (s : PrefState) (user_id : ℤ) (liked : Bool) :
    update_user_preference s [] user_id liked = (false, s) := rfl

/-- C8: for any non-empty theme-probability list, the normalized
probabilities sum to exactly 1; when the total is positive each entry is
divided by the total, and when the total is zero the uniform probability
1/n is assigned (no division by zero). -/
theorem C8_normalization (tps : List (ℤ × ℚ)) (h : tps ≠ []) :
    ((normalize_probabilities tps).map Prod.snd).sum = 1
    ∧ (0 < (tps.map Prod.snd).sum →
        normalize_probabilities tps
          = tps.map (fun p => (p.1, p.2 / (tps.map Prod.snd).sum)))
    ∧ ((tps.map Prod.snd).sum = 0 →
        normalize_probabilities tps
          = tps.map (fun p => (p.1, 1 / (tps.length : ℚ)))) := by
  have hdiv : ∀ (l : List (ℤ × ℚ)) (c : ℚ),
      (l.map (fun p => p.2 / c)).sum = (l.map Prod.snd).sum / c := by
    intro l c
    induction l with
    | nil => simp
    | cons a t ih => simp [ih, add_div]
  have hconst : ∀ (l : List (ℤ × ℚ)) (c : ℚ),
      (l.map (fun _ => c)).sum = (l.length : ℚ) * c := by
    intro l c
    induction l with
    | nil => simp
    | cons a t ih =>
        simp [ih]
        ring
  have hlen : ((tps.length : ℚ)) ≠ 0 := by
    simp [List.length_eq_zero, h]
  unfold normalize_probabilities
  rw [if_neg h]
  by_cases hpos : 0 < (tps.map Prod.snd).sum
  · rw [if_pos hpos]
    refine ⟨?_, fun _ => rfl, fun hz => absurd hz (by linarith)⟩
    rw [List.map_map]
    have : (Prod.snd ∘ fun p : ℤ × ℚ => (p.1, p.2 / (tps.map Prod.snd).sum))
        = fun p : ℤ × ℚ => p.2 / (tps.map Prod.snd).sum := rfl
    rw [this, hdiv]
    exact div_self (ne_of_gt hpos)
  · rw [if_neg hpos]
    refine ⟨?_, fun hp => absurd hp hpos, fun _ => rfl⟩
    rw [List.map_map]
    have : (Prod.snd ∘ fun p : ℤ × ℚ => (p.1, 1 / (tps.length : ℚ)))
        = fun _ : ℤ × ℚ => 1 / (tps.length : ℚ) := rfl
    rw [this, hconst]
    field_simp

theorem C8_normalization_witness :
    ((normalize_probabilities [((1 : ℤ), (1 : ℚ)/2), ((2 : ℤ), (1 : ℚ)/4)]).map
        Prod.snd).sum = 1
    ∧ normalize_probabilities [((1 : ℤ), (1 : ℚ)/2)]
        = [((1 : ℤ), (1 : ℚ)/2)].map
            (fun p => (p.1, p.2 / (([((1 : ℤ), (1 : ℚ)/2)].map Prod.snd).sum)))
    ∧ normalize_probabilities [((1 : ℤ), (0 : ℚ))]
        = [((1 : ℤ), (0 : ℚ))].map
            (fun p => (p.1, 1 / (([((1 : ℤ), (0 : ℚ))].length : ℚ)))) :=
  ⟨(C8_normalization [((1 : ℤ), (1 : ℚ)/2), ((2 : ℤ), (1 : ℚ)/4)] (by simp)).1,
   (C8_normalization [((1 : ℤ), (1 : ℚ)/2)] (by simp)).2.1 (by norm_num),
   (C8_normalization [((1 : ℤ), (0 : ℚ))] (by simp)).2.2 (by norm_num)⟩

/-- C9 counterexample: on an `AttributeError` (the database-unavailable
case) the outer handler returns `None` even though an unfiltered random
lookup would find an approved item — the "always degrades to an
unfiltered random approved item" claim is false for this exception. -/
theorem C9_counterexample :
    get_recommended_joke_result [⟨1, "", true⟩] [] 0 (.exc .attributeError) = none
    ∧ get_random_joke [⟨1, "", true⟩] [] 0 [] none = some 1 :=
  ⟨rfl, rfl⟩

/-- C9 (amended): `ValueError`/`TypeError`/`KeyError` during
scoring/selection degrade to `db.get_random_joke()` with no exclusions
and no theme filter; `AttributeError` yields `None`; and with no approved
item in the catalog the degraded lookup itself yields `None` as a normal
empty result. -/
theorem C9_degradation (jokes : List Joke) (joke_themes : List (ℕ × ℤ))
    (rand_idx : ℕ) (e : ScoringExc) :
    (e ≠ ScoringExc.attributeError →
      get_recommended_joke_result jokes joke_themes rand_idx (.exc e)
        = get_random_joke jokes joke_themes rand_idx [] none)
    ∧ get_recommended_joke_result jokes joke_themes rand_idx
        (.exc .attributeError) = none
    ∧ ((∀ j ∈ jokes, j.is_approved = false) →
        get_random_joke jokes joke_themes rand_idx [] none = none) := by
  refine ⟨?_, rfl, ?_⟩
  · intro he
    cases e with
    | valueError => rfl
    | typeError => rfl
    | keyError => rfl
    | attributeError => exact absurd rfl he
  · intro hap
    have hfil : jokes.filter (fun j => j.is_approved) = [] := by
      rw [List.filter_eq_nil_iff]
      intro j hj
      simp [hap j hj]
    unfold get_random_joke build_random_joke_query exec_random_joke_query
      random_joke_candidates
    simp [hfil, sql_pick]

theorem C9_degradation_witness :
    get_recommended_joke_result [⟨1, "", false⟩] [] 0 (.exc .valueError)
      = get_random_joke [⟨1, "", false⟩] [] 0 [] none
    ∧ get_random_joke [⟨1, "", false⟩] [] 0 [] none = none :=
  ⟨(C9_degradation [⟨1, "", false⟩] [] 0 .valueError).1 (by simp),
   (C9_degradation [⟨1, "", false⟩] [] 0 .valueError).2.2 (by simp)⟩

/-- A concrete randomness oracle: no exploration draw, theme chosen as
the head of the probability list, per-theme lookup finds nothing. -/
def sample_oracle : RecOracle :=
  { explore_draw := false
  , exploration_joke := none
  , choose_theme := fun l => (l.headD (0, 0)).1
  , theme_joke := fun _ => none }

/-- C4 counterexample: user 7 has no `user_preferences` rows at all, yet
with one theme in the catalog `get_user_preferences`' LEFT JOIN returns a
non-empty (defaulted) preference map, so `get_recommended_joke` does NOT
take the uniform-random no-preference branch. -/
theorem C4_counterexample :
    (∀ t : ℤ, (fun _ _ => none : PrefState) 7 t = none)
    ∧ recommend_path [⟨1, "", ""⟩] (fun _ _ => none) 7 sample_oracle
        ≠ RecommendPath.noPreferences := by
  refine ⟨fun t => rfl, ?_⟩
  norm_num [recommend_path, get_user_preferences, sample_oracle,
    calculate_theme_probabilities, calculate_theme_probability,
    normalize_probabilities]
  exact fun hcontr => RecommendPath.noConfusion hcontr

/-- C4 (amended): the uniform-random no-preference branch of
`get_recommended_joke` is taken exactly when the preference map is empty,
which (absent data-access errors) happens exactly when the `themes` table
is empty — not when the user merely has no `UserPreference` rows, since
the LEFT JOIN defaults every theme to score 0 / interactions 0. -/
theorem C4_no_preference_fallback (themes : List Theme) (s : PrefState)
    (user_id : ℤ) (o : RecOracle) :
    recommend_path themes s user_id o = RecommendPath.noPreferences
      ↔ themes = [] := by
  unfold recommend_path
  constructor
  · intro hpath
    by_cases hp : get_user_preferences themes s user_id = []
    · have : themes.map _ = [] := hp
      exact List.map_eq_nil_iff.mp this
    · rw [if_neg hp] at hpath
      split at hpath
      · exact absurd hpath (by simp)
      · dsimp only at hpath
        split at hpath
        · exact absurd hpath (by simp)
        · split at hpath <;> exact absurd hpath (by simp)
  · intro h
    subst h
    simp [get_user_preferences]

theorem C4_no_preference_fallback_witness :
    recommend_path [] (fun _ _ => none) 7 sample_oracle
      = RecommendPath.noPreferences :=
  (C4_no_preference_fallback [] (fun _ _ => none) 7 sample_oracle).mpr rfl

lemma effective_weight_nonneg (theme : ThemeLink)
    (hw : ∀ w, theme.weight = some w → 0 ≤ w) : 0 ≤ effective_weight theme := by
  unfold effective_weight
  cases htw : theme.weight with
  | none => norm_num
  | some w =>
      by_cases h0 : w = 0
      · simp [h0]
      · simp only [if_neg h0]
        exact hw w htw

lemma update_single_score_inv (s : PrefState) (user_id : ℤ) (theme : ThemeLink)
    (liked : Bool) (hw : ∀ w, theme.weight = some w → 0 ≤ w) (hs : ScoreInv s) :
    ScoreInv (update_single_theme_preference s user_id theme liked) := by
  intro u t r hr
  unfold update_single_theme_preference at hr
  by_cases hk : u = user_id ∧ t = theme.id
  · rw [if_pos hk] at hr
    injection hr with hr'
    subst hr'
    have hW := effective_weight_nonneg theme hw
    have hcur : -1 ≤ (match s user_id theme.id with
        | some row => row.score
        | none => 0)
        ∧ (match s user_id theme.id with
        | some row => row.score
        | none => 0) ≤ 1 := by
      cases hrow : s user_id theme.id with
      | none => norm_num
      | some row => exact hs user_id theme.id row hrow
    obtain ⟨hlo, hhi⟩ := hcur
    cases liked with
    | true =>
        refine ⟨le_min (by norm_num) (by nlinarith), ?_⟩
        exact min_le_left _ _
    | false =>
        refine ⟨le_max_left _ _, ?_⟩
        exact max_le (by norm_num) (by nlinarith)
  · rw [if_neg hk] at hr
    exact hs u t r hr

lemma foldl_update_score_inv (joke_themes : List ThemeLink) (user_id : ℤ)
    (liked : Bool) :
    ∀ s, (∀ th ∈ joke_themes, ∀ w, th.weight = some w → 0 ≤ w) → ScoreInv s →
      ScoreInv (joke_themes.foldl
        (fun st theme => update_single_theme_preference st user_id theme liked) s) := by
  induction joke_themes with
  | nil => exact fun s _ hs => hs
  | cons a rest ih =>
      intro s hw hs
      simp only [List.foldl_cons]
      exact ih _ (fun th hth w hw' => hw th (List.mem_cons_of_mem a hth) w hw')
        (update_single_score_inv s user_id a liked
          (fun w hw' => hw a (List.mem_cons_self a rest) w hw') hs)

lemma update_user_preference_score_inv (s : PrefState) (joke_themes : List ThemeLink)
    (user_id : ℤ) (liked : Bool)
    (hw : ∀ th ∈ joke_themes, ∀ w, th.weight = some w → 0 ≤ w) (hs : ScoreInv s) :
    ScoreInv (update_user_preference s joke_themes user_id liked).2 := by
  unfold update_user_preference
  by_cases hempty : joke_themes = []
  · rw [if_pos hempty]
    exact hs
  · rw [if_neg hempty]
    exact foldl_update_score_inv joke_themes user_id liked s hw hs

/-- C1: under any sequence of feedback events whose item-theme weights
are non-negative, every stored preference score stays within [-1, 1]
(each liked update sets `min 1 (score + 0.1*weight)`, each disliked
update sets `max (-1) (score - 0.1*weight)`), provided all scores start
in that range. -/
theorem C1_score_bounds (events : List FeedbackEvent) (s : PrefState)
    (hw : ∀ e ∈ events, ∀ th ∈ e.themes, ∀ w, th.weight = some w → 0 ≤ w)
    (hs : ScoreInv s) : ScoreInv (run_feedback s events) := by
  induction events generalizing s with
  | nil => exact hs
  | cons e rest ih =>
      show ScoreInv (run_feedback (update_user_preference s e.themes e.user e.liked).2 rest)
      exact ih _ (fun e' he' => hw e' (List.mem_cons_of_mem e he'))
        (update_user_preference_score_inv s e.themes e.user e.liked
          (hw e (List.mem_cons_self e rest)) hs)

theorem C1_score_bounds_witness :
    ScoreInv (run_feedback (fun _ _ => none)
      [{ user := 0, themes := [{ id := 1, weight := some 1 }], liked := true }]) :=
  C1_score_bounds _ _
    (by
      intro e he th hth w hww
      simp only [List.mem_singleton] at he
      subst he
      simp only [List.mem_singleton] at hth
      subst hth
      simp only [Option.some.injEq] at hww
      subst hww
      norm_num)
    (fun u t r hr => absurd hr (by simp))

lemma update_single_apply_self (s : PrefState) (user_id : ℤ) (theme : ThemeLink)
    (liked : Bool) :
    update_single_theme_preference s user_id theme liked user_id theme.id
      = some (updated_row (s user_id theme.id) theme liked) := by
  unfold update_single_theme_preference updated_row
  rw [if_pos ⟨rfl, rfl⟩]
  cases hrow : s user_id theme.id with
  | none => simp [hrow]
  | some row => simp [hrow]

lemma update_single_apply_ne (s : PrefState) (user_id : ℤ) (theme : ThemeLink)
    (liked : Bool) (u t : ℤ) (h : ¬(u = user_id ∧ t = theme.id)) :
    update_single_theme_preference s user_id theme liked u t = s u t := by
  unfold update_single_theme_preference
  rw [if_neg h]

lemma foldl_update_untouched (L : List ThemeLink) (user_id : ℤ) (liked : Bool)
    (u t : ℤ) (h : ∀ th ∈ L, ¬(u = user_id ∧ t = th.id)) :
    ∀ s, L.foldl (fun st theme => update_single_theme_preference st user_id theme liked)
      s u t = s u t := by
  induction L with
  | nil => exact fun s => rfl
  | cons a rest ih =>
      intro s
      simp only [List.foldl_cons]
      rw [ih (fun th hth => h th (List.mem_cons_of_mem a hth)) _]
      exact update_single_apply_ne s user_id a liked u t (h a (List.mem_cons_self a rest))

lemma foldl_update_apply (L : List ThemeLink) (user_id : ℤ) (liked : Bool)
    (hnd : (L.map ThemeLink.id).Nodup) (theme : ThemeLink) (hmem : theme ∈ L) :
    ∀ s, L.foldl (fun st th => update_single_theme_preference st user_id th liked)
        s user_id theme.id
      = some (updated_row (s user_id theme.id) theme liked) := by
  induction L with
  | nil => cases hmem
  | cons a rest ih =>
      intro s
      simp only [List.map_cons, List.nodup_cons] at hnd
      obtain ⟨hna, hndr⟩ := hnd
      simp only [List.foldl_cons]
      rcases List.mem_cons.mp hmem with heq | hmemr
      · subst heq
        rw [foldl_update_untouched rest user_id liked user_id theme.id ?_ _]
        · exact update_single_apply_self s user_id theme liked
        · intro th hth hcontr
          exact hna (by rw [hcontr.2]; exact List.mem_map_of_mem ThemeLink.id hth)
      · have hne : theme.id ≠ a.id := by
          intro hid
          exact hna (hid ▸ List.mem_map_of_mem ThemeLink.id hmemr)
        rw [ih hndr hmemr _]
        rw [update_single_apply_ne s user_id a liked user_id theme.id
          (fun hc => hne hc.2)]

/-- C7: a single `update_user_preference` call for an item linked to
several (distinct) themes updates each linked theme independently: the
theme's new row is `min 1 (old + 0.1*weight)` when liked,
`max (-1) (old - 0.1*weight)` when not (old score defaulting to 0), with
interactions incremented by 1 (initialized to 1 when no row existed expressing
the update rule of `_update_single_theme_preference`), and the call
reports success. -/
theorem C7_per_theme_update (s : PrefState) (user_id : ℤ) (liked : Bool)
    (L : List ThemeLink) (hnd : (L.map ThemeLink.id).Nodup)
    (theme : ThemeLink) (hmem : theme ∈ L) :
    (update_user_preference s L user_id liked).1 = true
    ∧ (update_user_preference s L user_id liked).2 user_id theme.id
        = some (updated_row (s user_id theme.id) theme liked) := by
  have hne : L ≠ [] := by
    intro h
    subst h
    cases hmem
  unfold update_user_preference
  rw [if_neg hne]
  exact ⟨rfl, foldl_update_apply L user_id liked hnd theme hmem s⟩

theorem C7_per_theme_update_witness :
    ((update_user_preference (fun _ _ => none)
        [⟨1, some 1⟩, ⟨2, some (1/2)⟩] 0 true).1 = true
      ∧ (update_user_preference (fun _ _ => none)
          [⟨1, some 1⟩, ⟨2, some (1/2)⟩] 0 true).2 0 1
          = some (updated_row ((fun _ _ => (none : Option PrefRow)) 0 1)
              ⟨1, some 1⟩ true))
    ∧ updated_row none ⟨1, some 1⟩ true = ⟨1/10, 1⟩
    ∧ updated_row none ⟨2, some (1/2)⟩ true = ⟨1/20, 1⟩ := by
  refine ⟨C7_per_theme_update (fun _ _ => none) 0 true _ (by simp) ⟨1, some 1⟩
    (by simp), ?_, ?_⟩
  · unfold updated_row effective_weight
    norm_num [min_eq_right]
  · unfold updated_row effective_weight
    norm_num [min_eq_right]

lemma profile_step_favorite (acc : ProfileAcc) (e : ℤ × ThemeData) :
    (profile_step acc e).favorite_theme
      = (if acc.max_score < e.2.score then some e.1 else acc.favorite_theme)
    ∧ (profile_step acc e).max_score
      = (if acc.max_score < e.2.score then e.2.score else acc.max_score) := by
  unfold profile_step
  by_cases h1 : acc.max_score < e.2.score <;>
    by_cases h2 : e.2.score < acc.min_score <;>
      by_cases h3 : acc.max_interactions < e.2.interactions <;>
        simp [h1, h2, h3]

lemma profile_step_least (acc : ProfileAcc) (e : ℤ × ThemeData) :
    (profile_step acc e).least_favorite_theme
      = (if e.2.score < acc.min_score then some e.1 else acc.least_favorite_theme)
    ∧ (profile_step acc e).min_score
      = (if e.2.score < acc.min_score then e.2.score else acc.min_score) := by
  unfold profile_step
  by_cases h1 : acc.max_score < e.2.score <;>
    by_cases h2 : e.2.score < acc.min_score <;>
      by_cases h3 : acc.max_interactions < e.2.interactions <;>
        simp [h1, h2, h3]

lemma profile_step_most (acc : ProfileAcc) (e : ℤ × ThemeData) :
    (profile_step acc e).most_interacted_theme
      = (if acc.max_interactions < e.2.interactions then some e.1
         else acc.most_interacted_theme)
    ∧ (profile_step acc e).max_interactions
      = (if acc.max_interactions < e.2.interactions then e.2.interactions
         else acc.max_interactions) := by
  unfold profile_step
  by_cases h1 : acc.max_score < e.2.score <;>
    by_cases h2 : e.2.score < acc.min_score <;>
      by_cases h3 : acc.max_interactions < e.2.interactions <;>
        simp [h1, h2, h3]

lemma fold_favorite_spec (l : List (ℤ × ThemeData)) :
    ∀ acc : ProfileAcc,
      (((l.foldl profile_step acc).favorite_theme = acc.favorite_theme
          ∧ (l.foldl profile_step acc).max_score = acc.max_score
          ∧ ∀ e ∈ l, e.2.score ≤ acc.max_score)
        ∨ (∃ e ∈ l, (l.foldl profile_step acc).favorite_theme = some e.1
            ∧ (l.foldl profile_step acc).max_score = e.2.score
            ∧ (∀ e' ∈ l, e'.2.score ≤ e.2.score)
            ∧ acc.max_score < e.2.score)) := by
  induction l with
  | nil => exact fun acc => Or.inl ⟨rfl, rfl, by simp⟩
  | cons x rest ih =>
      intro acc
      simp only [List.foldl_cons]
      obtain ⟨hfav, hmax⟩ := profile_step_favorite acc x
      by_cases hx : acc.max_score < x.2.score
      · rw [if_pos hx] at hfav hmax
        rcases ih (profile_step acc x) with ⟨hf, hm, hall⟩ | ⟨e, he, hf, hm, hall, hgt⟩
        · refine Or.inr ⟨x, List.mem_cons_self x rest, hf.trans hfav,
            hm.trans hmax, ?_, hx⟩
          intro e' he'
          rcases List.mem_cons.mp he' with rfl | hmem
          · exact le_refl _
          · exact (hall e' hmem).trans (le_of_eq hmax)
        · rw [hmax] at hgt
          refine Or.inr ⟨e, List.mem_cons_of_mem x he, hf, hm, ?_, lt_trans hx hgt⟩
          intro e' he'
          rcases List.mem_cons.mp he' with rfl | hmem
          · exact le_of_lt hgt
          · exact hall e' hmem
      · rw [if_neg hx] at hfav hmax
        push_neg at hx
        rcases ih (profile_step acc x) with ⟨hf, hm, hall⟩ | ⟨e, he, hf, hm, hall, hgt⟩
        · refine Or.inl ⟨hf.trans hfav, hm.trans hmax, ?_⟩
          intro e' he'
          rcases List.mem_cons.mp he' with rfl | hmem
          · exact hx
          · exact (hall e' hmem).trans (le_of_eq hmax)
        · rw [hmax] at hgt
          refine Or.inr ⟨e, List.mem_cons_of_mem x he, hf, hm, ?_, hgt⟩
          intro e' he'
          rcases List.mem_cons.mp he' with rfl | hmem
          · exact hx.trans (le_of_lt hgt)
          · exact hall e' hmem

lemma fold_least_spec (l : List (ℤ × ThemeData)) :
    ∀ acc : ProfileAcc,
      (((l.foldl profile_step acc).least_favorite_theme = acc.least_favorite_theme
          ∧ (l.foldl profile_step acc).min_score = acc.min_score
          ∧ ∀ e ∈ l, acc.min_score ≤ e.2.score)
        ∨ (∃ e ∈ l, (l.foldl profile_step acc).least_favorite_theme = some e.1
            ∧ (l.foldl profile_step acc).min_score = e.2.score
            ∧ (∀ e' ∈ l, e.2.score ≤ e'.2.score)
            ∧ e.2.score < acc.min_score)) := by
  induction l with
  | nil => exact fun acc => Or.inl ⟨rfl, rfl, by simp⟩
  | cons x rest ih =>
      intro acc
      simp only [List.foldl_cons]
      obtain ⟨hle, hmin⟩ := profile_step_least acc x
      by_cases hx : x.2.score < acc.min_score
      · rw [if_pos hx] at hle hmin
        rcases ih (profile_step acc x) with ⟨hf, hm, hall⟩ | ⟨e, he, hf, hm, hall, hlt⟩
        · refine Or.inr ⟨x, List.mem_cons_self x rest, hf.trans hle,
            hm.trans hmin, ?_, hx⟩
          intro e' he'
          rcases List.mem_cons.mp he' with rfl | hmem
          · exact le_refl _
          · exact (le_of_eq hmin.symm).trans (hall e' hmem)
        · rw [hmin] at hlt
          refine Or.inr ⟨e, List.mem_cons_of_mem x he, hf, hm, ?_, lt_trans hlt hx⟩
          intro e' he'
          rcases List.mem_cons.mp he' with rfl | hmem
          · exact le_of_lt hlt
          · exact hall e' hmem
      · rw [if_neg hx] at hle hmin
        push_neg at hx
        rcases ih (profile_step acc x) with ⟨hf, hm, hall⟩ | ⟨e, he, hf, hm, hall, hlt⟩
        · refine Or.inl ⟨hf.trans hle, hm.trans hmin, ?_⟩
          intro e' he'
          rcases List.mem_cons.mp he' with rfl | hmem
          · exact hx
          · exact (le_of_eq hmin.symm).trans (hall e' hmem)
        · rw [hmin] at hlt
          refine Or.inr ⟨e, List.mem_cons_of_mem x he, hf, hm, ?_, hlt⟩
          intro e' he'
          rcases List.mem_cons.mp he' with rfl | hmem
          · exact (le_of_lt hlt).trans hx
          · exact hall e' hmem

lemma fold_most_spec (l : List (ℤ × ThemeData)) :
    ∀ acc : ProfileAcc,
      (((l.foldl profile_step acc).most_interacted_theme = acc.most_interacted_theme
          ∧ (l.foldl profile_step acc).max_interactions = acc.max_interactions
          ∧ ∀ e ∈ l, e.2.interactions ≤ acc.max_interactions)
        ∨ (∃ e ∈ l, (l.foldl profile_step acc).most_interacted_theme = some e.1
            ∧ (l.foldl profile_step acc).max_interactions = e.2.interactions
            ∧ (∀ e' ∈ l, e'.2.interactions ≤ e.2.interactions)
            ∧ acc.max_interactions < e.2.interactions)) := by
  induction l with
  | nil => exact fun acc => Or.inl ⟨rfl, rfl, by simp⟩
  | cons x rest ih =>
      intro acc
      simp only [List.foldl_cons]
      obtain ⟨hmo, hmax⟩ := profile_step_most acc x
      by_cases hx : acc.max_interactions < x.2.interactions
      · rw [if_pos hx] at hmo hmax
        rcases ih (profile_step acc x) with ⟨hf, hm, hall⟩ | ⟨e, he, hf, hm, hall, hgt⟩
        · refine Or.inr ⟨x, List.mem_cons_self x rest, hf.trans hmo,
            hm.trans hmax, ?_, hx⟩
          intro e' he'
          rcases List.mem_cons.mp he' with rfl | hmem
          · exact le_refl _
          · exact (hall e' hmem).trans (le_of_eq hmax)
        · rw [hmax] at hgt
          refine Or.inr ⟨e, List.mem_cons_of_mem x he, hf, hm, ?_, lt_trans hx hgt⟩
          intro e' he'
          rcases List.mem_cons.mp he' with rfl | hmem
          · exact le_of_lt hgt
          · exact hall e' hmem
      · rw [if_neg hx] at hmo hmax
        push_neg at hx
        rcases ih (profile_step acc x) with ⟨hf, hm, hall⟩ | ⟨e, he, hf, hm, hall, hgt⟩
        · refine Or.inl ⟨hf.trans hmo, hm.trans hmax, ?_⟩
          intro e' he'
          rcases List.mem_cons.mp he' with rfl | hmem
          · exact hx
          · exact (hall e' hmem).trans (le_of_eq hmax)
        · rw [hmax] at hgt
          refine Or.inr ⟨e, List.mem_cons_of_mem x he, hf, hm, ?_, hgt⟩
          intro e' he'
          rcases List.mem_cons.mp he' with rfl | hmem
          · exact hx.trans (le_of_lt hgt)
          · exact hall e' hmem

/-- C10 counterexample: for the single-theme preference map with score
exactly -1, the strict comparison against the sentinel `max_score = -1`
never fires, so `favorite_theme` stays `None` even though theme 1 attains
the maximum score — the claim's "favorite is a theme attaining the
maximum" is false at this input. -/
theorem C10_counterexample :
    (create_user_profile [((1 : ℤ), ⟨"", "", -1, 0⟩)]).favorite_theme = none
    ∧ ∀ e ∈ [((1 : ℤ), (⟨"", "", -1, 0⟩ : ThemeData))],
        (create_user_profile [((1 : ℤ), ⟨"", "", -1, 0⟩)]).favorite_theme
          ≠ some e.1 := by
  have h : (create_user_profile
      [((1 : ℤ), (⟨"", "", -1, 0⟩ : ThemeData))]).favorite_theme = none := by
    show (profile_step profile_init ((1 : ℤ), ⟨"", "", -1, 0⟩)).favorite_theme = none
    rw [(profile_step_favorite _ _).1]
    norm_num [profile_init]
  refine ⟨h, ?_⟩
  intro e _
  rw [h]
  simp

/-- C10 (amended): `_create_user_profile` returns the themes sorted by
score descending; `favorite_theme` attains the maximum score provided
some score exceeds -1, `least_favorite_theme` attains the minimum
provided some score is below 1, and `most_interacted_theme` attains the
maximum interactions provided some count exceeds -1 (the strict
comparisons against the sentinels -1, 1, -1 leave the fields `None`
otherwise). -/
theorem C10_profile (preferences : List (ℤ × ThemeData)) :
    ((create_user_profile preferences).themes).Pairwise
        (fun a b => b.score ≤ a.score)
    ∧ ((∃ e ∈ preferences, -1 < e.2.score) →
        ∃ e ∈ preferences,
          (create_user_profile preferences).favorite_theme = some e.1
          ∧ ∀ e' ∈ preferences, e'.2.score ≤ e.2.score)
    ∧ ((∃ e ∈ preferences, e.2.score < 1) →
        ∃ e ∈ preferences,
          (create_user_profile preferences).least_favorite_theme = some e.1
          ∧ ∀ e' ∈ preferences, e.2.score ≤ e'.2.score)
    ∧ ((∃ e ∈ preferences, -1 < e.2.interactions) →
        ∃ e ∈ preferences,
          (create_user_profile preferences).most_interacted_theme = some e.1
          ∧ ∀ e' ∈ preferences, e'.2.interactions ≤ e.2.interactions) := by
  refine ⟨?_, ?_, ?_, ?_⟩
  · have h := @List.sorted_mergeSort ThemeProfile
      (fun a b : ThemeProfile => decide (b.score ≤ a.score))
      (fun a b c hab hbc => by
        simp only [decide_eq_true_eq] at *
        exact le_trans hbc hab)
      (fun a b => by
        by_cases hab : b.score ≤ a.score
        · simp [hab]
        · simp [hab, le_of_not_le hab])
      ((preferences.foldl profile_step profile_init).themes)
    exact h.imp (fun hab => by simpa using hab)
  · intro ⟨e0, he0, hgt⟩
    rcases fold_favorite_spec preferences profile_init with
      ⟨_, _, hall⟩ | ⟨e, he, hf, _, hall, _⟩
    · have := hall e0 he0
      simp only [profile_init] at this
      linarith
    · exact ⟨e, he, hf, hall⟩
  · intro ⟨e0, he0, hlt⟩
    rcases fold_least_spec preferences profile_init with
      ⟨_, _, hall⟩ | ⟨e, he, hf, _, hall, _⟩
    · have := hall e0 he0
      simp only [profile_init] at this
      linarith
    · exact ⟨e, he, hf, hall⟩
  · intro ⟨e0, he0, hgt⟩
    rcases fold_most_spec preferences profile_init with
      ⟨_, _, hall⟩ | ⟨e, he, hf, _, hall, _⟩
    · have := hall e0 he0
      simp only [profile_init] at this
      omega
    · exact ⟨e, he, hf, hall⟩

def sample_prefs : List (ℤ × ThemeData) :=
  [((1 : ℤ), ⟨"", "", 0, 3⟩), ((2 : ℤ), ⟨"", "", 1/2, 7⟩)]

theorem C10_profile_witness :
    (∃ e ∈ sample_prefs,
      (create_user_profile sample_prefs).favorite_theme = some e.1
      ∧ ∀ e' ∈ sample_prefs, e'.2.score ≤ e.2.score)
    ∧ (∃ e ∈ sample_prefs,
      (create_user_profile sample_prefs).least_favorite_theme = some e.1
      ∧ ∀ e' ∈ sample_prefs, e.2.score ≤ e'.2.score)
    ∧ (∃ e ∈ sample_prefs,
      (create_user_profile sample_prefs).most_interacted_theme = some e.1
      ∧ ∀ e' ∈ sample_prefs, e'.2.interactions ≤ e.2.interactions) :=
  ⟨(C10_profile sample_prefs).2.1
      ⟨((2 : ℤ), ⟨"", "", 1/2, 7⟩), by simp [sample_prefs], by norm_num⟩,
   (C10_profile sample_prefs).2.2.1
      ⟨((1 : ℤ), ⟨"", "", 0, 3⟩), by simp [sample_prefs], by norm_num⟩,
   (C10_profile sample_prefs).2.2.2
      ⟨((2 : ℤ), ⟨"", "", 1/2, 7⟩), by simp [sample_prefs], by norm_num⟩⟩

end HihiHaha
